import Mathlib

/-!
Verification development for the ai-widget-assistant backend.

The embedding covers the rule-based mock answering engine
(`app/core/llm_client.py`, `LLMClient._mock_response` and its helper
closures `parse_price`, `get_dep_time`, `parse_time_to_minutes`), the
excerpt verification guardrail (`app/core/verifier.py`,
`verify_excerpt`) and the chat endpoint glue
(`app/api/chat.py`, `chat_endpoint`).

Python strings are modelled as Lean `String`; Python dicts decoded from
the request JSON are association lists in insertion order; JSON values
are the inductive `JVal`.  Python numbers are modelled as exact
rationals (`Int` for JSON integers, `ℚ` for floats); binary
floating-point rounding is outside the model.  Code that can raise a
runtime exception is modelled in `Except Unit`.
-/

deriving instance DecidableEq for Except

namespace AIWidget

/-- Characters that Python `str.split`, `str.strip` and the regex
whitespace class match (ASCII part). -/
def pySpaceChar (c : Char) : Bool :=
  c = ' ' || c = '\t' || c = '\n' || c = '\x0d' || c = '\x0b' || c = '\x0c'

/-- Python `s.lower()` (ASCII case folding). -/
def pyLower (s : String) : String := String.mk (s.data.map Char.toLower)

/-- Python `s.upper()` (ASCII case folding). -/
def pyUpper (s : String) : String := String.mk (s.data.map Char.toUpper)

/-- Python `s.strip()`. -/
def pyStrip (s : String) : String :=
  String.mk (((s.data.dropWhile pySpaceChar).reverse.dropWhile pySpaceChar).reverse)

/-- Python `s.split()` with no argument: split on whitespace runs,
dropping empty fields. -/
def pyWords (l : List Char) : List String :=
  match l with
  | [] => []
  | c :: cs =>
    if pySpaceChar c then pyWords cs
    else
      String.mk (List.takeWhile (fun x => !pySpaceChar x) (c :: cs)) ::
        pyWords (List.dropWhile (fun x => !pySpaceChar x) cs)
termination_by l.length
decreasing_by
  all_goals simp_wf
  all_goals
    have h : (List.dropWhile (fun x => !pySpaceChar x) cs).length ≤ cs.length :=
      (List.dropWhile_sublist _).length_le
  all_goals omega

/-- Python `sep.join(parts)`. -/
def joinSep (sep : String) : List String → String
  | [] => ""
  | [s] => s
  | s :: t :: rest => s ++ sep ++ joinSep sep (t :: rest)

/-- Python substring test `needle in hay` on strings. -/
def pyInStr (needle hay : String) : Bool := decide (needle.data <:+: hay.data)

/-- The normalisation used by the fallback branch of the verifier:
`" ".join(s.lower().split())`. -/
def pyNormalize (s : String) : String := joinSep " " (pyWords (pyLower s).data)

/-- Function `verify_excerpt` from `app/core/verifier.py`: false on empty input,
then exact substring containment, then whitespace/case normalised
containment. -/
def verify_excerpt (context_blob excerpt : String) : Bool :=
  if excerpt = "" ∨ context_blob = "" then false
  else if pyInStr excerpt context_blob then true
  else pyInStr (pyNormalize excerpt) (pyNormalize context_blob)

mutual
/-- JSON values as decoded by the endpoint from the request body. -/
inductive JVal where
  | jnull
  | jbool (b : Bool)
  | jint (n : Int)
  | jfloat (q : ℚ)
  | jstr (s : String)
  | jarr (elems : JList)
  | jobj (fields : JFields)

/-- Elements of a JSON array. -/
inductive JList where
  | nil
  | cons (v : JVal) (t : JList)

/-- Fields of a JSON object in insertion order. -/
inductive JFields where
  | nil
  | cons (k : String) (v : JVal) (t : JFields)
end
deriving instance DecidableEq for JVal, JList, JFields

/-- One context record (a Python dict in insertion order). -/
abbrev Record := List (String × JVal)

/-- Whether a JSON array is empty. -/
def JList.isNil : JList → Bool
  | .nil => true
  | .cons _ _ => false

/-- Whether a JSON object is empty. -/
def JFields.isNil : JFields → Bool
  | .nil => true
  | .cons _ _ _ => false

/-- Python truthiness of a JSON-decoded value. -/
def truthy : JVal → Bool
  | .jnull => false
  | .jbool b => b
  | .jint n => n != 0
  | .jfloat q => q != 0
  | .jstr s => !(s = "")
  | .jarr l => !l.isNil
  | .jobj l => !l.isNil

/-- Python `card.get(k)`. -/
def pyGet (card : Record) (k : String) : Option JVal :=
  (card.find? (fun p => p.1 == k)).map (fun p => p.2)

/-- Python `card.get(k)` with a missing key collapsing to `None`. -/
def getOrNull (card : Record) (k : String) : JVal := (pyGet card k).getD .jnull

/-- Python `a or b`. -/
def pyOr (a b : JVal) : JVal := if truthy a then a else b

/-- A single hexadecimal digit (lowercase, as used by `json.dumps`). -/
def hexDig (n : Nat) : Char := if n < 10 then Char.ofNat (48 + n) else Char.ofNat (87 + n)

/-- Escaping of one character inside a JSON string literal, as done by
`json.dumps(..., ensure_ascii=False)`: `"` and backslash are escaped,
control characters get short or `\u00XX` escapes, everything else
(including non-ASCII) is emitted raw. -/
def escChar (c : Char) : String :=
  if c = '"' then "\\\""
  else if c = '\\' then "\\\\"
  else if c = '\n' then "\\n"
  else if c = '\t' then "\\t"
  else if c = '\x0d' then "\\r"
  else if c = '\x08' then "\\b"
  else if c = '\x0c' then "\\f"
  else if c.toNat < 32 then
    "\\u00" ++ String.mk [hexDig (c.toNat / 16), hexDig (c.toNat % 16)]
  else String.mk [c]

/-- A JSON string literal as produced by `json.dumps`. -/
def dumpStr (s : String) : String := "\"" ++ String.join (s.data.map escChar) ++ "\""

/-- Decimal rendering of a rational that stands for a Python float,
matching `repr` for the exact decimal values the model uses
(`5000.0`, `0.5`, ...).  Rationals with no finite decimal expansion
(unreachable from JSON decimal literals) fall back to a `num/den` form. -/
def ratDecimalString (q : ℚ) : String :=
  let sign : String := if q.num < 0 then "-" else ""
  let n := q.num.natAbs
  let den := q.den
  match (List.range 40).find? (fun k => 10 ^ k % den = 0) with
  | some k =>
    if k = 0 then sign ++ toString n ++ ".0"
    else
      let scaled := n * (10 ^ k / den)
      let ip := scaled / 10 ^ k
      let fp := scaled % 10 ^ k
      let fpDigits := toString fp
      let pad := String.mk (List.replicate (k - fpDigits.length) '0')
      sign ++ toString ip ++ "." ++ pad ++ fpDigits
  | none => sign ++ toString n ++ "/" ++ toString den

mutual
/-- Serialization `json.dumps(v, ensure_ascii=False)` with the default separators
`", "` and `": "` (as used at `chat.py` line 35 and
`llm_client.py` line 197). -/
def dumps : JVal → String
  | .jnull => "null"
  | .jbool b => if b then "true" else "false"
  | .jint n => toString n
  | .jfloat q => ratDecimalString q
  | .jstr s => dumpStr s
  | .jarr l => "[" ++ joinSep ", " (dumpsList l) ++ "]"
  | .jobj fs => "\x7b" ++ joinSep ", " (dumpsFields fs) ++ "\x7d"

/-- Serialisations of the elements of a JSON array. -/
def dumpsList : JList → List String
  | .nil => []
  | .cons v t => dumps v :: dumpsList t

/-- Serialisations of the fields of a JSON object. -/
def dumpsFields : JFields → List String
  | .nil => []
  | .cons k v t => (dumpStr k ++ ": " ++ dumps v) :: dumpsFields t
end

/-- Serialisations of the fields of a record (a top-level dict). -/
def dumpsRecordFields : Record → List String
  | [] => []
  | (k, v) :: t => (dumpStr k ++ ": " ++ dumps v) :: dumpsRecordFields t

/-- Serialization `json.dumps(card, ensure_ascii=False)` for one record
(`llm_client.py` line 197). -/
def dumpRecord (card : Record) : String :=
  "\x7b" ++ joinSep ", " (dumpsRecordFields card) ++ "\x7d"

/-- Serialization `json.dumps(req.context, ensure_ascii=False)` for the whole context
(`chat.py` line 35). -/
def dumpCtx (ctx : List Record) : String :=
  "[" ++ joinSep ", " (ctx.map dumpRecord) ++ "]"

mutual
/-- Python `repr` of a JSON-decoded value (containers spell their
elements with `repr`; quote-style switching for strings that contain a
quote is not modelled, no claim depends on it). -/
def pyRepr : JVal → String
  | .jnull => "None"
  | .jbool b => if b then "True" else "False"
  | .jint n => toString n
  | .jfloat q => ratDecimalString q
  | .jstr s => "\x27" ++ s ++ "\x27"
  | .jarr l => "[" ++ joinSep ", " (pyReprList l) ++ "]"
  | .jobj fs => "\x7b" ++ joinSep ", " (pyReprFields fs) ++ "\x7d"

/-- Python `repr` of the elements of a list. -/
def pyReprList : JList → List String
  | .nil => []
  | .cons v t => pyRepr v :: pyReprList t

/-- Python `repr` of the fields of a dict. -/
def pyReprFields : JFields → List String
  | .nil => []
  | .cons k v t => ("\x27" ++ k ++ "\x27: " ++ pyRepr v) :: pyReprFields t
end

/-- Python `str` of a JSON-decoded value. -/
def pyStr : JVal → String
  | .jstr s => s
  | .jnull => "None"
  | .jbool b => if b then "True" else "False"
  | .jint n => toString n
  | .jfloat q => ratDecimalString q
  | .jarr l => pyRepr (.jarr l)
  | .jobj fs => pyRepr (.jobj fs)

/-- Numeric value of one decimal digit character. -/
def digVal (c : Char) : Nat := c.toNat - 48

/-- Value of a string of decimal digits. -/
def digitsToNat (l : List Char) : Nat := l.foldl (fun acc c => acc * 10 + digVal c) 0

/-- Exact rational value of a digits token, as `float()` of the token
(decimal values are represented exactly in this model). -/
def tokenToRat (ip fp : List Char) : ℚ :=
  Rat.divInt ((digitsToNat ip * 10 ^ fp.length + digitsToNat fp : Nat) : Int)
    ((10 ^ fp.length : Nat) : Int)

/-- Modelled from the spec (section 4.1 step 3 and Scenario C): the
numeric-token extraction the spec describes for string prices — the
leftmost run of digits with an optional decimal part.  The program
does NOT implement this: its pattern is written `r"(\\d+(?:\\.\\d+)?)"`,
where `\\d` matches a literal backslash followed by the letter d.
This definition exists only to state what the spec predicts. -/
def specNumToken : List Char → Option (List Char × List Char)
  | [] => none
  | c :: cs =>
    if c.isDigit then
      let ip := List.takeWhile Char.isDigit (c :: cs)
      let rest := List.dropWhile Char.isDigit (c :: cs)
      match rest with
      | '.' :: r2 =>
        let fp := List.takeWhile Char.isDigit r2
        if fp.isEmpty then some (ip, []) else some (ip, fp)
      | _ => some (ip, [])
    else specNumToken cs

/-- Modelled from the spec: price parsing as section 4.1 step 3
describes it — numeric values directly, otherwise the first numeric
token of the stringified value after discarding thousands
separators.  Used only to state what the spec predicts. -/
def specParsePrice (p : JVal) : Option ℚ :=
  match p with
  | .jint n => some (n : ℚ)
  | .jfloat q => some q
  | .jbool b => some (if b then 1 else 0)
  | _ =>
    let s := String.mk ((pyStr p).data.filter (fun c => !(c = ',')))
    match specNumToken s.data with
    | some (ip, fp) => some (tokenToRat ip fp)
    | none => none

/-- A match of the price pattern of the source, anchored at the head
of `l`.  The source writes the pattern as the raw string
`r"(\\d+(?:\\.\\d+)?)"` (`llm_client.py` line 124), in which `\\`
matches one literal backslash, so the token is: a backslash, one or
more letters d, optionally followed by a backslash, any character but
a newline, a backslash and more letters d.  Returns the captured
token. -/
def numTokenAt : List Char → Option (List Char)
  | '\\' :: 'd' :: cs =>
    let ds := cs.takeWhile (fun c => c = 'd')
    let r1 := cs.dropWhile (fun c => c = 'd')
    let base := '\\' :: 'd' :: ds
    match r1 with
    | '\\' :: c2 :: r2 =>
      if c2 = '\n' then some base
      else
        match r2 with
        | '\\' :: 'd' :: r3 =>
          some (base ++ ['\\', c2, '\\', 'd'] ++ r3.takeWhile (fun c => c = 'd'))
        | _ => some base
    | _ => some base
  | _ => none

/-- Search as `re.search` for the price pattern: leftmost match. -/
def searchNumToken : List Char → Option (List Char)
  | [] => none
  | c :: cs =>
    match numTokenAt (c :: cs) with
    | some t => some t
    | none => searchNumToken cs

/-- Python `float()` on a token string: an optional sign and digits
with an optional decimal part.  Exponent, infinity and nan forms are
not modelled: every token the price pattern can capture contains a
backslash, so `float()` always raises `ValueError` on them and this
parser correspondingly always fails there. -/
def pyFloatOfChars (l : List Char) : Option ℚ :=
  let core := fun (sign : Int) (l1 : List Char) =>
    let ip := l1.takeWhile Char.isDigit
    let r1 := l1.dropWhile Char.isDigit
    match r1 with
    | [] =>
      if ip.isEmpty then none
      else some (Rat.divInt (sign * (digitsToNat ip : Int)) 1)
    | '.' :: r2 =>
      let fp := r2.takeWhile Char.isDigit
      let r3 := r2.dropWhile Char.isDigit
      if r3.isEmpty ∧ ¬(ip.isEmpty ∧ fp.isEmpty) then
        some (Rat.divInt
          (sign * ((digitsToNat ip * 10 ^ fp.length + digitsToNat fp : Nat) : Int))
          ((10 ^ fp.length : Nat) : Int))
      else none
    | _ => none
  match l with
  | '-' :: t => core (-1) t
  | '+' :: t => core 1 t
  | t => core 1 t

/-- Function `parse_price` from `_mock_response` (`llm_client.py`
lines 119-125): numbers (including booleans, which Python counts as
ints) convert directly; anything else is stringified and commas are
removed, then the pattern `r"(\\d+(?:\\.\\d+)?)"` is searched.  Because
`\\d` matches a literal backslash plus the letter d, ordinary price
strings contain no match and the function returns `None`; when the
pattern does match, the captured token contains a backslash, so
`float(m.group(1))` raises an uncaught `ValueError` — an error in the
model. -/
def parse_price (p : JVal) : Except Unit (Option ℚ) :=
  match p with
  | .jint n => .ok (some (n : ℚ))
  | .jfloat q => .ok (some q)
  | .jbool b => .ok (some (if b then 1 else 0))
  | _ =>
    let s := String.mk ((pyStr p).data.filter (fun c => !(c = ',')))
    match searchNumToken s.data with
    | some tok =>
      match pyFloatOfChars tok with
      | some v => .ok (some v)
      | none => .error ()
    | none => .ok none

/-- The argument `card.get("price") or card.get("fare") or
card.get("amount")` passed to `parse_price`
(`llm_client.py` line 174), with Python `or` short-circuiting on
truthiness and a missing key reading as `None`. -/
def priceChainVal (card : Record) : JVal :=
  pyOr (getOrNull card "price") (pyOr (getOrNull card "fare") (getOrNull card "amount"))

/-- The price the ranking scan attributes to a record; an error when
`float()` raises inside `parse_price`. -/
def resolvePrice (card : Record) : Except Unit (Option ℚ) :=
  parse_price (priceChainVal card)

/-- The value of the first key of `keys` that is present in `card` with
a truthy value (the shape of the lookup loops in `get_dep_time`). -/
def firstTruthyKey (card : Record) : List String → Option JVal
  | [] => none
  | k :: ks =>
    match pyGet card k with
    | some v => if truthy v then some v else firstTruthyKey card ks
    | none => firstTruthyKey card ks

/-- Whether a JSON object has key `k`. -/
def jfieldsHasKey (k : String) : JFields → Bool
  | .nil => false
  | .cons k2 _ t => if k2 = k then true else jfieldsHasKey k t

/-- Whether a JSON array contains the string `k` (Python `in` on a
list compares with `==`). -/
def jlistHasStr (k : String) : JList → Bool
  | .nil => false
  | .cons v t => if v = .jstr k then true else jlistHasStr k t

/-- Lookup of key `k` in a JSON object (a missing key is a `KeyError`,
which the call sites have already excluded). -/
def jfieldsLookup (k : String) : JFields → Except Unit JVal
  | .nil => .error ()
  | .cons k2 v t => if k2 = k then .ok v else jfieldsLookup k t

/-- Python `k in seg` for an arbitrary JSON value `seg`: key lookup for
dicts, substring test for strings, membership for lists, and a
`TypeError` for values that are not iterable. -/
def pyInJVal (k : String) : JVal → Except Unit Bool
  | .jobj fs => .ok (jfieldsHasKey k fs)
  | .jstr s => .ok (pyInStr k s)
  | .jarr l => .ok (jlistHasStr k l)
  | _ => .error ()

/-- Python `seg[k]` for a string key: field access on dicts, a
`TypeError` on anything else. -/
def pyIndexStr (seg : JVal) (k : String) : Except Unit JVal :=
  match seg with
  | .jobj fs => jfieldsLookup k fs
  | _ => .error ()

/-- The loop over `("dep_time", "departure_time", "departure")` on
`segments[0]` inside `get_dep_time` (`llm_client.py` lines 133-135):
`if k in seg and seg[k]: return str(seg[k])`.  Raises exactly when
Python would raise a `TypeError`. -/
def segTimeLoop (seg : JVal) : List String → Except Unit (Option String)
  | [] => .ok none
  | k :: ks =>
    match pyInJVal k seg with
    | .error u => .error u
    | .ok b =>
      if b then
        match pyIndexStr seg k with
        | .error u => .error u
        | .ok v => if truthy v then .ok (some (pyStr v)) else segTimeLoop seg ks
      else segTimeLoop seg ks

/-- Function `get_dep_time` from `_mock_response` (`llm_client.py` lines
127-136): first truthy departure alias at the top level, otherwise the
first element of a non-empty `segments` list is probed with the nested
aliases. -/
def get_dep_time (card : Record) : Except Unit (Option String) :=
  match firstTruthyKey card ["departure_time", "dep_time", "departure", "departureAt", "dep"] with
  | some v => .ok (some (pyStr v))
  | none =>
    match pyGet card "segments" with
    | some (.jarr (.cons seg _)) => segTimeLoop seg ["dep_time", "departure_time", "departure"]
    | _ => .ok none

/-- Candidates for the `strptime` directive `%I`, in the order of its
alternation `1[0-2]|0[1-9]|[1-9]`: each candidate is the hour read and
the remaining input. -/
def matchI : List Char → List (Nat × List Char)
  | '1' :: c :: rest =>
    (if c = '0' ∨ c = '1' ∨ c = '2' then [(10 + digVal c, rest)] else []) ++ [(1, c :: rest)]
  | '0' :: c :: rest => if c.isDigit ∧ ¬c = '0' then [(digVal c, rest)] else []
  | c :: rest => if c.isDigit ∧ ¬c = '0' then [(digVal c, rest)] else []
  | [] => []

/-- Candidates for the `strptime` directive `%H`, alternation
`2[0-3]|[0-1]\d|\d`. -/
def matchH : List Char → List (Nat × List Char)
  | '2' :: c :: rest =>
    (if c = '0' ∨ c = '1' ∨ c = '2' ∨ c = '3' then [(20 + digVal c, rest)] else []) ++
      [(2, c :: rest)]
  | c1 :: c2 :: rest =>
    (if (c1 = '0' ∨ c1 = '1') ∧ c2.isDigit then [(10 * digVal c1 + digVal c2, rest)] else []) ++
      (if c1.isDigit then [(digVal c1, c2 :: rest)] else [])
  | [c] => if c.isDigit then [(digVal c, [])] else []
  | [] => []

/-- Candidates for the `strptime` directive `%M`, alternation
`[0-5]\d|\d`. -/
def matchM : List Char → List (Nat × List Char)
  | c1 :: c2 :: rest =>
    (if '0' ≤ c1 ∧ c1 ≤ '5' ∧ c2.isDigit then [(10 * digVal c1 + digVal c2, rest)] else []) ++
      (if c1.isDigit then [(digVal c1, c2 :: rest)] else [])
  | [c] => if c.isDigit then [(digVal c, [])] else []
  | [] => []

/-- The `strptime` directive `%p` (AM or PM, case-insensitive);
`true` means PM. -/
def matchP : List Char → List (Bool × List Char)
  | c1 :: c2 :: rest =>
    if (c1 = 'A' ∨ c1 = 'a') ∧ (c2 = 'M' ∨ c2 = 'm') then [(false, rest)]
    else if (c1 = 'P' ∨ c1 = 'p') ∧ (c2 = 'M' ∨ c2 = 'm') then [(true, rest)]
    else []
  | _ => []

/-- A literal whitespace in a `strptime` format, which CPython turns
into the pattern of one or more whitespace characters. -/
def matchWs1 (l : List Char) : List (Unit × List Char) :=
  if (l.takeWhile pySpaceChar).isEmpty then []
  else [((), l.dropWhile pySpaceChar)]

/-- The hour `strptime` reports for a 12-hour reading combined with an
AM/PM marker: 12 AM wraps to 0, 12 PM stays 12. -/
def conv12 (h : Nat) (pm : Bool) : Nat :=
  if pm then (if h = 12 then 12 else h + 12) else (if h = 12 then 0 else h)

/-- Evaluation of `strptime(t, "%I:%M %p")` restricted to the derived
(hour, minute); `none` when the format does not match the whole
string. -/
def strptimeIMp (l : List Char) : Option (Nat × Nat) :=
  (matchI l).findSome? fun hc =>
    match hc.2 with
    | ':' :: r2 =>
      (matchM r2).findSome? fun mc =>
        (matchWs1 mc.2).findSome? fun wc =>
          (matchP wc.2).findSome? fun pc =>
            if pc.2.isEmpty then some (conv12 hc.1 pc.1, mc.1) else none
    | _ => none

/-- Evaluation of `strptime(t, "%I %p")`. -/
def strptimeIp (l : List Char) : Option (Nat × Nat) :=
  (matchI l).findSome? fun hc =>
    (matchWs1 hc.2).findSome? fun wc =>
      (matchP wc.2).findSome? fun pc =>
        if pc.2.isEmpty then some (conv12 hc.1 pc.1, 0) else none

/-- Evaluation of `strptime(t, "%H:%M")`. -/
def strptimeHM (l : List Char) : Option (Nat × Nat) :=
  (matchH l).findSome? fun hc =>
    match hc.2 with
    | ':' :: r2 =>
      (matchM r2).findSome? fun mc =>
        if mc.2.isEmpty then some (hc.1, mc.1) else none
    | _ => none

/-- Evaluation of `strptime(t, "%H")`. -/
def strptimeHOnly (l : List Char) : Option (Nat × Nat) :=
  (matchH l).findSome? fun hc => if hc.2.isEmpty then some (hc.1, 0) else none

/-- The `for fmt in patterns` loop of `parse_time_to_minutes`
(`llm_client.py` lines 142-148): the four formats are tried in order
on the uppercased string and the first success yields
`dt.hour * 60 + dt.minute`. -/
def strptimeAny (s : String) : Option Nat :=
  let l := s.data
  match strptimeIMp l with
  | some hm => some (hm.1 * 60 + hm.2)
  | none =>
    match strptimeIp l with
    | some hm => some (hm.1 * 60 + hm.2)
    | none =>
      match strptimeHM l with
      | some hm => some (hm.1 * 60 + hm.2)
      | none =>
        match strptimeHOnly l with
        | some hm => some (hm.1 * 60 + hm.2)
        | none => none

/-- A match of the lenient fallback pattern of the source, anchored at
the head of `l`.  The source writes it as the raw string
`r"(\\d{1,2})(?::(\\d{2}))?\\s*(am|pm)?"` (`llm_client.py` line 149):
`\\d{1,2}` is a literal backslash followed by one or two letters d,
the optional colon group is a colon, a backslash and two letters d,
and `\\s*` is a MANDATORY literal backslash followed by zero or more
letters s (the star binds only to the letter s).  Only existence of a
match matters to the caller, because the captured hour group always
contains the leading backslash. -/
def lenientMatchAt : List Char → Bool
  | '\\' :: 'd' :: rest =>
    let cand : List (List Char) :=
      match rest with
      | 'd' :: r2 => [r2, rest]
      | _ => [rest]
    cand.any fun r1 =>
      let cand2 : List (List Char) :=
        match r1 with
        | ':' :: '\\' :: 'd' :: 'd' :: r3 => [r3, r1]
        | _ => [r1]
      cand2.any fun r2 =>
        match r2 with
        | '\\' :: _ => true
        | _ => false
  | _ => false

/-- Search as `re.search` for the lenient fallback pattern: whether it
matches anywhere. -/
def lenientSearch : List Char → Bool
  | [] => false
  | c :: cs => lenientMatchAt (c :: cs) || lenientSearch cs

/-- Function `parse_time_to_minutes` from `_mock_response`
(`llm_client.py` lines 138-159): `None` for an absent or empty string,
otherwise the strict `strptime` formats on the stripped uppercased
string (their format strings carry no backslashes and work as
written), then the lenient regex on the lowercased string.  When that
regex matches — only possible on text containing literal backslashes —
the captured hour group contains a backslash and `int(m.group(1))`
raises an uncaught `ValueError`; otherwise the search fails and the
function returns `None`. -/
def parse_time_to_minutes (tstr : Option String) : Except Unit (Option Nat) :=
  match tstr with
  | none => .ok none
  | some s =>
    if s = "" then .ok none
    else
      let t := pyStrip s
      match strptimeAny (pyUpper t) with
      | some m => .ok (some m)
      | none =>
        if lenientSearch (pyLower t).data then .error () else .ok none

/-- A match of the after pattern of the source, anchored at the head
of `l`.  The source writes it as the raw string
`r"after\\s+(\\d{1,2}(?::\\d{2})?\\s*(?:am|pm)?)"`
(`llm_client.py` line 163): the word `after`, then a literal
backslash and one or more letters s, then the captured group of a
backslash, one or two letters d, an optional colon-backslash-dd part,
a mandatory backslash with zero or more letters s, and an optional
am or pm.  Returns the text of group 1, which the caller re-parses. -/
def bsTail (r : List Char) : Option (List Char) :=
  match r with
  | '\\' :: r2 =>
    let ss := r2.takeWhile (fun c => c = 's')
    let r3 := r2.dropWhile (fun c => c = 's')
    let ap : List Char :=
      match r3 with
      | 'a' :: 'm' :: _ => ['a', 'm']
      | 'p' :: 'm' :: _ => ['p', 'm']
      | _ => []
    some ('\\' :: (ss ++ ap))
  | _ => none

/-- The optional colon part plus the mandatory backslash tail of the
captured after group, with the backtracking order of the regex:
first with the colon part, then without. -/
def afterTail (r : List Char) : Option (List Char) :=
  let withColon : Option (List Char) :=
    match r with
    | ':' :: '\\' :: 'd' :: 'd' :: r3 =>
      match bsTail r3 with
      | some t => some ([':', '\\', 'd', 'd'] ++ t)
      | none => none
    | _ => none
  match withColon with
  | some t => some t
  | none => bsTail r

/-- The captured group of the after pattern anchored at the head of
`l`: a backslash, one or two letters d (two preferred), then
`afterTail`. -/
def groupAt : List Char → Option (List Char)
  | '\\' :: 'd' :: r2 =>
    let two : Option (List Char) :=
      match r2 with
      | 'd' :: r3 =>
        match afterTail r3 with
        | some t => some ('\\' :: 'd' :: 'd' :: t)
        | none => none
      | _ => none
    match two with
    | some g => some g
    | none =>
      match afterTail r2 with
      | some t => some ('\\' :: 'd' :: t)
      | none => none
  | _ => none

/-- One attempt of the whole after pattern at a fixed position. -/
def tryAfterAt : List Char → Option (List Char)
  | 'a' :: 'f' :: 't' :: 'e' :: 'r' :: '\\' :: rest =>
    let ss := rest.takeWhile (fun c => c = 's')
    let r1 := rest.dropWhile (fun c => c = 's')
    if ss.isEmpty then none else groupAt r1
  | _ => none

/-- Search as `re.search` for the after pattern: leftmost match. -/
def searchAfter : List Char → Option (List Char)
  | [] => none
  | c :: cs =>
    match tryAfterAt (c :: cs) with
    | some g => some g
    | none => searchAfter cs

/-- Extraction of the `after_time` threshold from the lowercased
question (`llm_client.py` lines 162-165): the captured group of the
after pattern fed through `parse_time_to_minutes`.  On natural
questions the pattern never matches (it requires literal backslashes)
and the threshold is absent; when it does match, re-parsing the group
reaches the lenient fallback and raises. -/
def extractAfter (q : String) : Except Unit (Option Nat) :=
  match searchAfter q.data with
  | some g => parse_time_to_minutes (some (String.mk g))
  | none => .ok none

/-- The first alternative of the airline pattern anchored at the head
of `l`.  The source writes it `air\\s*india` (`llm_client.py` line
167): the word `air`, a literal backslash, zero or more letters s and
the word `india` — so neither `air india` nor `airindia` matches it.
Returns the matched text. -/
def airAlt1 : List Char → Option (List Char)
  | 'a' :: 'i' :: 'r' :: '\\' :: rest =>
    let ss := rest.takeWhile (fun c => c = 's')
    let r1 := rest.dropWhile (fun c => c = 's')
    if decide ("india".data <+: r1) then
      some ('a' :: 'i' :: 'r' :: '\\' :: (ss ++ "india".data))
    else none
  | _ => none

/-- A literal alternative of the airline pattern anchored at the head
of `l`. -/
def litTokAt (pat : String) (l : List Char) : Option (List Char) :=
  if decide (pat.data <+: l) then some pat.data else none

/-- One attempt of the airline pattern at a fixed position, with the
alternatives in the order they appear in the source
(`llm_client.py` line 167). -/
def tryAirlineAt (l : List Char) : Option (List Char) :=
  match airAlt1 l with
  | some g => some g
  | none =>
    match litTokAt "indigo" l with
    | some g => some g
    | none =>
      match litTokAt "spicejet" l with
      | some g => some g
      | none =>
        match litTokAt "vistara" l with
        | some g => some g
        | none =>
          match litTokAt "airasia" l with
          | some g => some g
          | none =>
            match litTokAt "goair" l with
            | some g => some g
            | none => litTokAt "go air" l

/-- Search as `re.search` for the airline pattern: leftmost match. -/
def searchAirline : List Char → Option (List Char)
  | [] => none
  | c :: cs =>
    match tryAirlineAt (c :: cs) with
    | some g => some g
    | none => searchAirline cs

/-- Extraction of the airline token from the lowercased question
(`llm_client.py` lines 167-168). -/
def extractAirline (q : String) : Option String := (searchAirline q.data).map String.mk

/-- The replacement step of the ranking scan
(`llm_client.py` lines 189-191): the current best is replaced only on
a strictly smaller price. -/
def updateBest (acc : Option (Record × ℚ)) (card : Record) (price : ℚ) :
    Option (Record × ℚ) :=
  match acc with
  | none => some (card, price)
  | some bp => if price < bp.2 then some (card, price) else some bp

/-- The `card_air` value of the airline filter
(`llm_client.py` lines 178-181): a loop without a break, so the last
truthy alias wins; empty when no alias is truthy. -/
def airlineFilterStr (card : Record) : String :=
  ["airline", "carrier", "airline_name"].foldl
    (fun acc k =>
      match pyGet card k with
      | some v => if truthy v then pyLower (pyStr v) else acc
      | none => acc) ""

/-- The airline name printed in the answer
(`llm_client.py` line 194): first truthy alias, else
`"Unknown Airline"`. -/
def answerAirlineVal (card : Record) : JVal :=
  pyOr (getOrNull card "airline")
    (pyOr (getOrNull card "carrier")
      (pyOr (getOrNull card "airline_name") (.jstr "Unknown Airline")))

/-- One iteration of the `for card in context` loop of
`_mock_response` (`llm_client.py` lines 173-191): skip on an
unresolvable price (propagating the `float()` error when the price
pattern matched), then the airline filter, then the departure-time
filter (which can raise through `get_dep_time` or through the
`int()` of the lenient time regex), then the strictly-cheaper
replacement. -/
def stepCard (airline : Option String) (after_time : Option Nat)
    (acc : Option (Record × ℚ)) (card : Record) : Except Unit (Option (Record × ℚ)) :=
  match resolvePrice card with
  | .error u => .error u
  | .ok none => .ok acc
  | .ok (some price) =>
    let airlineOk : Bool :=
      match airline with
      | some a => if a = "" then true else pyInStr a (airlineFilterStr card)
      | none => true
    if !airlineOk then .ok acc
    else
      match after_time with
      | none => .ok (updateBest acc card price)
      | some t =>
        match get_dep_time card with
        | .error u => .error u
        | .ok dep =>
          match parse_time_to_minutes dep with
          | .error u => .error u
          | .ok none => .ok acc
          | .ok (some dm) => if dm < t then .ok acc else .ok (updateBest acc card price)

/-- The `for card in context` loop itself: a left fold of `stepCard`
that propagates a raised exception. -/
def scanCards (airline : Option String) (after_time : Option Nat) :
    Option (Record × ℚ) → List Record → Except Unit (Option (Record × ℚ))
  | acc, [] => .ok acc
  | acc, card :: rest =>
    match stepCard airline after_time acc card with
    | .error u => .error u
    | .ok acc2 => scanCards airline after_time acc2 rest

/-- The fixed fallback sentence of `_mock_response` and of the
endpoint (`llm_client.py` line 200, `chat.py` line 41). -/
def fallbackAnswer : String := "I cannot find that information on this page."

/-- The `\x7banswer, excerpt\x7d` pair returned by the LLM client. -/
structure MockResp where
  answer : String
  excerpt : Option String
deriving DecidableEq

/-- The `if best:` tail of `_mock_response`
(`llm_client.py` lines 193-200): build the answer sentence and the
serialized excerpt from the selected card, or the fallback pair when
the scan selected nothing (or, unreachably, an empty dict, which
Python counts as falsy).  The departure lookup can raise; and when an
airline filter is active, the f-string evaluates
`' from ' + airline_name`, which raises `TypeError` when the first
truthy airline alias of the card is not a string. -/
def buildAnswer (airline : Option String) (best : Option (Record × ℚ)) :
    Except Unit MockResp :=
  match best with
  | some bp =>
    if bp.1.isEmpty then .ok ⟨fallbackAnswer, none⟩
    else
      let airline_name := pyStr (answerAirlineVal bp.1)
      match get_dep_time bp.1 with
      | .error u => .error u
      | .ok depOpt =>
        let dep :=
          match depOpt with
          | some s => if s = "" then "Unknown" else s
          | none => "Unknown"
        match airline with
        | some a =>
          if a = "" then
            .ok ⟨"Cheapest flight is " ++ airline_name ++ ", departs at " ++ dep ++
              ", price " ++ ratDecimalString bp.2 ++ ".", some (dumpRecord bp.1)⟩
          else
            match answerAirlineVal bp.1 with
            | .jstr s =>
              .ok ⟨"Cheapest flight from " ++ s ++ " is " ++ airline_name ++
                ", departs at " ++ dep ++ ", price " ++ ratDecimalString bp.2 ++ ".",
                some (dumpRecord bp.1)⟩
            | _ => .error ()
        | none =>
          .ok ⟨"Cheapest flight is " ++ airline_name ++ ", departs at " ++ dep ++
            ", price " ++ ratDecimalString bp.2 ++ ".", some (dumpRecord bp.1)⟩
  | none => .ok ⟨fallbackAnswer, none⟩

/-- Method `_mock_response` (`llm_client.py` lines 111-200): parse the
time filter (whose extraction can itself raise) and the airline filter
from the lowercased question, scan the context for the cheapest
qualifying card, and build the answer sentence and the serialized
excerpt, or the fallback when nothing qualifies. -/
def mock_response (question : String) (context : List Record) : Except Unit MockResp :=
  match extractAfter (pyLower question) with
  | .error u => .error u
  | .ok after_time =>
    match scanCards (extractAirline (pyLower question)) after_time none context with
    | .error u => .error u
    | .ok best => buildAnswer (extractAirline (pyLower question)) best

/-- Method `LLMClient.get_response` in mock mode
(`llm_client.py` lines 50-63): with `settings.USE_MOCK_LLM` at its
default `true` (`config.py` line 10) the call forwards to
`_mock_response`; the `system_prompt` argument is not consulted. -/
def get_response (system_prompt question : String) (context : List Record) :
    Except Unit MockResp :=
  mock_response question context

/-- The response model of the endpoint (`schemas.py` lines 27-36). -/
structure ChatResponse where
  answer : String
  excerpt : Option String
deriving DecidableEq

/-- Function `build_system_prompt` (`app/utils/prompt.py`). -/
def build_system_prompt : String :=
  "You are the HappyFares AI assistant. You MUST only answer using the provided page context. If the information is not present in the context, respond exactly: \x27I cannot find that information on this page.\x27 Always include one short verbatim excerpt from the context. Return your response strictly as a JSON object with keys \x27answer\x27 and \x27excerpt\x27 only."

/-- Endpoint `chat_endpoint` (`chat.py` lines 15-41) with the mock client: the
excerpt of the LLM response must be truthy and a verbatim substring of the
serialized context, otherwise the fixed fallback response is
substituted.  The Redis write is an external effect whose failure the
endpoint swallows; it does not influence the response. -/
def chat_endpoint (question : String) (context : List Record) : Except Unit ChatResponse :=
  match get_response build_system_prompt question context with
  | .error u => .error u
  | .ok response =>
    let context_blob := dumpCtx context
    match response.excerpt with
    | some e =>
      if ¬e = "" ∧ pyInStr e context_blob = true then .ok ⟨response.answer, some e⟩
      else .ok ⟨fallbackAnswer, none⟩
    | none => .ok ⟨fallbackAnswer, none⟩

/-! Helper lemmas. -/

theorem str_eq_empty_iff (s : String) : s = "" ↔ s.data = [] := by
  constructor
  · intro h; subst h; rfl
  · intro h
    cases s with
    | mk d =>
      have hd : d = [] := h
      subst hd; rfl

theorem pyInStr_iff (n h : String) : pyInStr n h = true ↔ n.data <:+: h.data := by
  simp [pyInStr]

theorem mem_joinSep_infix (sep : String) :
    ∀ (parts : List String) (s : String), s ∈ parts →
      s.data <:+: (joinSep sep parts).data
  | [], s, hs => absurd hs (List.not_mem_nil s)
  | [x], s, hs => by
    rcases List.mem_singleton.mp hs with rfl
    exact List.infix_rfl
  | x :: y :: rest, s, hs => by
    rcases List.mem_cons.mp hs with rfl | hs2
    · show s.data <:+: (s ++ sep ++ joinSep sep (y :: rest)).data
      rw [String.data_append, String.data_append]
      exact ((List.prefix_append s.data sep.data).trans
        (List.prefix_append (s.data ++ sep.data) _)).isInfix
    · have ih := mem_joinSep_infix sep (y :: rest) s hs2
      show s.data <:+: (x ++ sep ++ joinSep sep (y :: rest)).data
      rw [String.data_append, String.data_append]
      exact ih.trans (List.suffix_append _ _).isInfix

theorem dumpRecord_infix_dumpCtx (card : Record) (ctx : List Record)
    (h : card ∈ ctx) : (dumpRecord card).data <:+: (dumpCtx ctx).data := by
  have h1 : dumpRecord card ∈ ctx.map dumpRecord := List.mem_map_of_mem dumpRecord h
  have h2 := mem_joinSep_infix ", " (ctx.map dumpRecord) (dumpRecord card) h1
  show (dumpRecord card).data <:+: ("[" ++ joinSep ", " (ctx.map dumpRecord) ++ "]").data
  rw [String.data_append, String.data_append, List.append_assoc]
  exact h2.trans (List.infix_append' _ _ _)

theorem dumpRecord_ne_empty (card : Record) : ¬dumpRecord card = "" := by
  rw [str_eq_empty_iff]
  show ¬("\x7b" ++ joinSep ", " (dumpsRecordFields card) ++ "\x7d").data = []
  rw [String.data_append, String.data_append]
  intro h
  have h2 := (List.append_eq_nil.mp (List.append_eq_nil.mp h).1).1
  have h3 : ¬("\x7b" : String).data = [] := by decide
  exact h3 h2

theorem verify_excerpt_of_exact (b e : String) (he : ¬e = "")
    (hsub : pyInStr e b = true) : verify_excerpt b e = true := by
  have hinf : e.data <:+: b.data := (pyInStr_iff e b).mp hsub
  have hb : ¬b = "" := by
    intro h0
    subst h0
    exact he ((str_eq_empty_iff e).mpr (List.infix_nil.mp hinf))
  simp [verify_excerpt, he, hb, hsub]

/-! Claim theorems. -/

/-- C3: `verify_excerpt` is false when either input is empty, true
exactly when the excerpt occurs verbatim in the context blob or, after
collapsing whitespace runs and lowercasing both strings, occurs in the
normalized blob; and it is total (always returns a boolean). -/
theorem verify_excerpt_spec (b e : String) :
    (verify_excerpt b e = true ↔
      (¬e = "" ∧ ¬b = "" ∧
        (e.data <:+: b.data ∨ (pyNormalize e).data <:+: (pyNormalize b).data)))
    ∧ (verify_excerpt b e = true ∨ verify_excerpt b e = false) := by
  constructor
  · by_cases h1 : e = "" ∨ b = ""
    · constructor
      · intro hv
        exfalso
        simp [verify_excerpt, h1] at hv
      · rintro ⟨he, hb, _⟩
        rcases h1 with h | h
        · exact absurd h he
        · exact absurd h hb
    · push_neg at h1
      obtain ⟨he, hb⟩ := h1
      by_cases h2 : pyInStr e b = true
      · constructor
        · intro _
          exact ⟨he, hb, Or.inl ((pyInStr_iff e b).mp h2)⟩
        · intro _
          exact verify_excerpt_of_exact b e he h2
      · have hneg : ¬(e = "" ∨ b = "") := by
          intro h; rcases h with h | h
          · exact he h
          · exact hb h
        constructor
        · intro hv
          refine ⟨he, hb, Or.inr ?_⟩
          simp only [verify_excerpt, if_neg hneg] at hv
          rw [if_neg (by simp [h2])] at hv
          exact (pyInStr_iff _ _).mp hv
        · rintro ⟨_, _, hor⟩
          rcases hor with hex | hnorm
          · exact absurd ((pyInStr_iff e b).mpr hex) h2
          · simp only [verify_excerpt, if_neg hneg]
            rw [if_neg (by simp [h2])]
            exact (pyInStr_iff _ _).mpr hnorm
  · cases hv : verify_excerpt b e
    · exact Or.inr rfl
    · exact Or.inl rfl

/-- C1: over every completed request of the endpoint running the mock
interpreter, a surfaced excerpt is the excerpt of the interpreter and
passes `verify_excerpt` against the serialization of the context of
the request, and whenever verification of that excerpt fails
(a null or empty or unmatched excerpt) the endpoint answers exactly
with the fixed fallback pair. -/
theorem chat_endpoint_gate (q : String) (ctx : List Record) (resp : ChatResponse)
    (h : chat_endpoint q ctx = .ok resp) :
    (∀ e, resp.excerpt = some e →
      verify_excerpt (dumpCtx ctx) e = true ∧
      ∃ m, mock_response q ctx = .ok m ∧ m.answer = resp.answer ∧ m.excerpt = some e)
    ∧ (∀ m, mock_response q ctx = .ok m →
        verify_excerpt (dumpCtx ctx) (m.excerpt.getD "") = false →
        resp = ⟨fallbackAnswer, none⟩) := by
  unfold chat_endpoint get_response at h
  cases hm : mock_response q ctx with
  | error u =>
    rw [hm] at h
    exact absurd h (by simp)
  | ok m =>
    rw [hm] at h
    dsimp only at h
    cases hex : m.excerpt with
    | none =>
      rw [hex] at h
      dsimp only at h
      have hr : resp = ⟨fallbackAnswer, none⟩ := (Except.ok.inj h).symm
      constructor
      · intro e he
        rw [hr] at he
        exact absurd he (by simp)
      · intro _ _ _
        exact hr
    | some e =>
      rw [hex] at h
      dsimp only at h
      by_cases hc : ¬e = "" ∧ pyInStr e (dumpCtx ctx) = true
      · rw [if_pos hc] at h
        have hr : resp = ⟨m.answer, some e⟩ := (Except.ok.inj h).symm
        constructor
        · intro e2 he2
          rw [hr] at he2
          have he3 : e2 = e := by
            simpa using he2.symm
          subst he3
          refine ⟨verify_excerpt_of_exact _ _ hc.1 hc.2, m, rfl, ?_, hex⟩
          rw [hr]
        · intro m2 hm2 hv
          have hmm : m2 = m := Except.ok.inj hm2.symm
          subst hmm
          rw [hex] at hv
          exact absurd (verify_excerpt_of_exact _ _ hc.1 hc.2)
            (by simpa using hv)
      · rw [if_neg hc] at h
        have hr : resp = ⟨fallbackAnswer, none⟩ := (Except.ok.inj h).symm
        constructor
        · intro e2 he2
          rw [hr] at he2
          exact absurd he2 (by simp)
        · intro _ _ _
          exact hr

theorem updateBest_some (acc : Option (Record × ℚ)) (card : Record) (pr : ℚ)
    (c : Record) (p : ℚ) (h : updateBest acc card pr = some (c, p)) :
    acc = some (c, p) ∨ (c = card ∧ p = pr) := by
  cases acc with
  | none =>
    simp only [updateBest] at h
    have h2 := Option.some.inj h
    exact Or.inr ⟨(congrArg Prod.fst h2).symm, (congrArg Prod.snd h2).symm⟩
  | some bp =>
    simp only [updateBest] at h
    by_cases hlt : pr < bp.2
    · rw [if_pos hlt] at h
      have h2 := Option.some.inj h
      exact Or.inr ⟨(congrArg Prod.fst h2).symm, (congrArg Prod.snd h2).symm⟩
    · rw [if_neg hlt] at h
      exact Or.inl h

theorem stepCard_ok_cases (a : Option String) (t : Option Nat)
    (acc : Option (Record × ℚ)) (card : Record) (res : Option (Record × ℚ))
    (h : stepCard a t acc card = .ok res) :
    res = acc ∨ ∃ pr, resolvePrice card = .ok (some pr) ∧ res = updateBest acc card pr := by
  unfold stepCard at h
  split at h
  · exact absurd h (by simp)
  · exact Or.inl (Except.ok.inj h).symm
  · rename_i pr hp
    dsimp only at h
    split at h
    · exact Or.inl (Except.ok.inj h).symm
    · split at h
      · exact Or.inr ⟨pr, hp, (Except.ok.inj h).symm⟩
      · split at h
        · exact absurd h (by simp)
        · split at h
          · exact absurd h (by simp)
          · exact Or.inl (Except.ok.inj h).symm
          · split at h
            · exact Or.inl (Except.ok.inj h).symm
            · exact Or.inr ⟨pr, hp, (Except.ok.inj h).symm⟩

theorem scanCards_mem (a : Option String) (t : Option Nat) :
    ∀ (ctx : List Record) (acc res : Option (Record × ℚ)),
      scanCards a t acc ctx = .ok res → ∀ c p, res = some (c, p) →
        acc = some (c, p) ∨ c ∈ ctx
  | [], acc, res, h, c, p, hr => Or.inl (by rw [Except.ok.inj h]; exact hr)
  | card :: rest, acc, res, h, c, p, hr => by
    unfold scanCards at h
    cases hs : stepCard a t acc card with
    | error u =>
      rw [hs] at h
      exact absurd h (by simp)
    | ok acc2 =>
      rw [hs] at h
      dsimp only at h
      have ih := scanCards_mem a t rest acc2 res h c p hr
      rcases ih with h2 | h2
      · rcases stepCard_ok_cases a t acc card acc2 hs with h3 | ⟨pr, _, h3⟩
        · exact Or.inl (by rw [← h3]; exact h2)
        · have h4 := updateBest_some acc card pr c p (by rw [← h3]; exact h2)
          rcases h4 with h5 | ⟨h5, _⟩
          · exact Or.inl h5
          · exact Or.inr (by rw [h5]; exact List.mem_cons_self card rest)
      · exact Or.inr (List.mem_cons_of_mem card h2)

theorem buildAnswer_excerpt (a : Option String) (best : Option (Record × ℚ))
    (r : MockResp) (e : String) (h : buildAnswer a best = .ok r)
    (he : r.excerpt = some e) : ∃ bp, best = some bp ∧ e = dumpRecord bp.1 := by
  cases best with
  | none =>
    have hr : MockResp.mk fallbackAnswer none = r := Except.ok.inj h
    rw [← hr] at he
    exact absurd he (by simp)
  | some bp =>
    unfold buildAnswer at h
    dsimp only at h
    by_cases hbe : bp.1.isEmpty = true
    · rw [if_pos hbe] at h
      have hr : MockResp.mk fallbackAnswer none = r := Except.ok.inj h
      rw [← hr] at he
      exact absurd he (by simp)
    · rw [if_neg hbe] at h
      cases hd : get_dep_time bp.1 with
      | error u =>
        rw [hd] at h
        exact absurd h (by simp)
      | ok dep =>
        rw [hd] at h
        dsimp only at h
        cases a with
        | none =>
          dsimp only at h
          have hr := Except.ok.inj h
          rw [← hr] at he
          exact ⟨bp, rfl, (Option.some.inj he).symm⟩
        | some s =>
          dsimp only at h
          by_cases hs : s = ""
          · rw [if_pos hs] at h
            have hr := Except.ok.inj h
            rw [← hr] at he
            exact ⟨bp, rfl, (Option.some.inj he).symm⟩
          · rw [if_neg hs] at h
            cases hv : answerAirlineVal bp.1 with
            | jstr s2 =>
              rw [hv] at h
              dsimp only at h
              have hr := Except.ok.inj h
              rw [← hr] at he
              exact ⟨bp, rfl, (Option.some.inj he).symm⟩
            | jnull => rw [hv] at h; exact absurd h (by simp)
            | jbool b => rw [hv] at h; exact absurd h (by simp)
            | jint n => rw [hv] at h; exact absurd h (by simp)
            | jfloat qv => rw [hv] at h; exact absurd h (by simp)
            | jarr l => rw [hv] at h; exact absurd h (by simp)
            | jobj fs => rw [hv] at h; exact absurd h (by simp)

/-- C2: whenever the mock interpreter returns a non-null excerpt, that
excerpt is byte-identical to a substring of the serialization of the
full context produced with the same stable encoding, and
`verify_excerpt` accepts it against that serialization. -/
theorem mock_excerpt_verbatim (q : String) (ctx : List Record) (r : MockResp)
    (e : String) (hm : mock_response q ctx = .ok r) (he : r.excerpt = some e) :
    e.data <:+: (dumpCtx ctx).data ∧ verify_excerpt (dumpCtx ctx) e = true := by
  unfold mock_response at hm
  cases hz : extractAfter (pyLower q) with
  | error u =>
    rw [hz] at hm
    exact absurd hm (by simp)
  | ok aft =>
    rw [hz] at hm
    dsimp only at hm
    cases hsc : scanCards (extractAirline (pyLower q)) aft none ctx with
    | error u =>
      rw [hsc] at hm
      exact absurd hm (by simp)
    | ok best =>
      rw [hsc] at hm
      dsimp only at hm
      obtain ⟨bp, hbest, he2⟩ := buildAnswer_excerpt _ _ _ _ hm he
      subst hbest
      have hmem : bp.1 ∈ ctx := by
        rcases scanCards_mem _ _ ctx none (some bp) hsc bp.1 bp.2 rfl with h0 | h0
        · exact absurd h0 (by simp)
        · exact h0
      have hinf : e.data <:+: (dumpCtx ctx).data := by
        rw [he2]
        exact dumpRecord_infix_dumpCtx bp.1 ctx hmem
      refine ⟨hinf, ?_⟩
      apply verify_excerpt_of_exact
      · rw [he2]; exact dumpRecord_ne_empty bp.1
      · exact (pyInStr_iff _ _).mpr hinf

/-- One loop iteration when both filters are absent and the price
resolution of the card does not raise: the card is ranked exactly when
its price resolves to a number. -/
def pureStep (acc : Option (Record × ℚ)) (card : Record) : Option (Record × ℚ) :=
  match resolvePrice card with
  | .ok (some pr) => updateBest acc card pr
  | _ => acc

/-- The scan result over a whole context when both filters are
absent. -/
def scanBest (ctx : List Record) : Option (Record × ℚ) := List.foldl pureStep none ctx

theorem stepCard_no_filters (acc : Option (Record × ℚ)) (card : Record)
    (hP : ¬resolvePrice card = .error ()) :
    stepCard none none acc card = .ok (pureStep acc card) := by
  cases hp : resolvePrice card with
  | error u =>
    cases u
    exact absurd hp hP
  | ok po =>
    cases po with
    | none => simp [stepCard, pureStep, hp]
    | some pr => simp [stepCard, pureStep, hp]

theorem scanCards_no_filters :
    ∀ (ctx : List Record) (acc : Option (Record × ℚ)),
      (∀ c ∈ ctx, ¬resolvePrice c = .error ()) →
      scanCards none none acc ctx = .ok (List.foldl pureStep acc ctx)
  | [], _, _ => rfl
  | card :: rest, acc, h => by
    unfold scanCards
    rw [stepCard_no_filters acc card (h card (List.mem_cons_self card rest))]
    dsimp only
    rw [scanCards_no_filters rest (pureStep acc card)
      (fun c hc => h c (List.mem_cons_of_mem card hc))]
    rfl

theorem pureStep_skip (acc : Option (Record × ℚ)) (card : Record)
    (h : ∀ pr, ¬resolvePrice card = .ok (some pr)) : pureStep acc card = acc := by
  cases hp : resolvePrice card with
  | error u => simp [pureStep, hp]
  | ok po =>
    cases po with
    | none => simp [pureStep, hp]
    | some pr => exact absurd hp (h pr)

theorem foldl_pureStep_unpriced :
    ∀ (ctx : List Record) (acc : Option (Record × ℚ)),
      (∀ c ∈ ctx, resolvePrice c = .ok none) → List.foldl pureStep acc ctx = acc
  | [], _, _ => rfl
  | card :: rest, acc, h => by
    rw [List.foldl_cons]
    have h1 : pureStep acc card = acc := by
      simp [pureStep, h card (List.mem_cons_self card rest)]
    rw [h1]
    exact foldl_pureStep_unpriced rest acc (fun c hc => h c (List.mem_cons_of_mem card hc))

theorem foldl_pureStep_spec :
    ∀ (ctx : List Record) (acc : Option (Record × ℚ)) (c : Record) (p : ℚ),
      List.foldl pureStep acc ctx = some (c, p) →
      (acc = some (c, p) ∧ ∀ c2 ∈ ctx, ∀ p2, resolvePrice c2 = .ok (some p2) → p ≤ p2)
      ∨ (∃ l1 l2, ctx = l1 ++ c :: l2 ∧ resolvePrice c = .ok (some p)
          ∧ (∀ bp, acc = some bp → p < bp.2)
          ∧ (∀ c2 ∈ l1, ∀ p2, resolvePrice c2 = .ok (some p2) → p < p2)
          ∧ (∀ c2 ∈ l2, ∀ p2, resolvePrice c2 = .ok (some p2) → p ≤ p2))
  | [], acc, c, p, h => by
    left
    refine ⟨h, ?_⟩
    intro c2 hc2
    exact absurd hc2 (List.not_mem_nil c2)
  | x :: xs, acc, c, p, h => by
    rw [List.foldl_cons] at h
    rcases foldl_pureStep_spec xs (pureStep acc x) c p h with
      ⟨hacc2, hall⟩ | ⟨l1, l2, hsplit, hres, hacclt, hl1, hl2⟩
    · by_cases hx : ∃ pr, resolvePrice x = .ok (some pr)
      · obtain ⟨pr, hp⟩ := hx
        have hup : updateBest acc x pr = some (c, p) := by
          rw [← hacc2]; simp [pureStep, hp]
        cases acc with
        | none =>
          simp only [updateBest] at hup
          have h2 := Option.some.inj hup
          have hcx : x = c := congrArg Prod.fst h2
          have hpp : pr = p := congrArg Prod.snd h2
          right
          refine ⟨[], xs, ?_, ?_, ?_, ?_, ?_⟩
          · rw [hcx]; rfl
          · rw [← hcx, ← hpp]; exact hp
          · intro bp hbp; exact absurd hbp (by simp)
          · intro c2 hc2; exact absurd hc2 (List.not_mem_nil c2)
          · exact hall
        | some bp0 =>
          simp only [updateBest] at hup
          by_cases hlt : pr < bp0.2
          · rw [if_pos hlt] at hup
            have h2 := Option.some.inj hup
            have hcx : x = c := congrArg Prod.fst h2
            have hpp : pr = p := congrArg Prod.snd h2
            right
            refine ⟨[], xs, ?_, ?_, ?_, ?_, ?_⟩
            · rw [hcx]; rfl
            · rw [← hcx, ← hpp]; exact hp
            · intro bp hbp
              have hbp2 : bp0 = bp := Option.some.inj hbp
              rw [← hbp2, ← hpp]
              exact hlt
            · intro c2 hc2; exact absurd hc2 (List.not_mem_nil c2)
            · exact hall
          · rw [if_neg hlt] at hup
            left
            constructor
            · exact hup
            · intro c2 hc2 p2 hp2
              rcases List.mem_cons.mp hc2 with rfl | hc3
              · have hpr : p2 = pr := by
                  rw [hp] at hp2
                  exact Option.some.inj (Except.ok.inj hp2.symm)
                have hbp : bp0.2 = p := congrArg Prod.snd (Option.some.inj hup)
                rw [hpr, ← hbp]
                exact le_of_not_lt hlt
              · exact hall c2 hc3 p2 hp2
      · push_neg at hx
        have hskip : pureStep acc x = acc := pureStep_skip acc x hx
        left
        constructor
        · rw [← hskip]; exact hacc2
        · intro c2 hc2 p2 hp2
          rcases List.mem_cons.mp hc2 with rfl | hc3
          · exact absurd hp2 (hx p2)
          · exact hall c2 hc3 p2 hp2
    · right
      refine ⟨x :: l1, l2, ?_, hres, ?_, ?_, hl2⟩
      · rw [hsplit]; rfl
      · intro bp habp
        by_cases hx : ∃ pr, resolvePrice x = .ok (some pr)
        · obtain ⟨pr, hp⟩ := hx
          by_cases hlt : pr < bp.2
          · have h1 : p < pr := by
              apply hacclt (x, pr)
              rw [habp]; simp [pureStep, hp, updateBest, hlt]
            exact h1.trans hlt
          · apply hacclt
            rw [habp]; simp [pureStep, hp, updateBest, hlt]
        · push_neg at hx
          apply hacclt
          rw [pureStep_skip acc x hx]
          exact habp
      · intro c2 hc2 p2 hp2
        rcases List.mem_cons.mp hc2 with rfl | hc3
        · cases acc with
          | none =>
            apply hacclt (c2, p2)
            simp [pureStep, hp2, updateBest]
          | some bp0 =>
            by_cases hlt : p2 < bp0.2
            · apply hacclt (c2, p2)
              simp [pureStep, hp2, updateBest, hlt]
            · have h1 : p < bp0.2 := by
                apply hacclt bp0
                simp [pureStep, hp2, updateBest, hlt]
              exact h1.trans_le (le_of_not_lt hlt)
        · exact hl1 c2 hc3 p2 hp2

/-- C4 counterexample: the string price `100` is what the spec calls
parseable (its first numeric token is 100), yet the program skips that
record — the source price pattern matches only a literal backslash
followed by letters d — and returns the strictly more expensive
int-priced record instead of the record with the lowest parseable
price. -/
theorem cheapest_string_price_refuted :
    specParsePrice (JVal.jstr "100") = some 100
    ∧ resolvePrice [("price", JVal.jstr "100")] = .ok none
    ∧ mock_response "hello" [[("price", JVal.jstr "100")], [("price", JVal.jint 200)]] =
      .ok ⟨"Cheapest flight is Unknown Airline, departs at Unknown, price 200.0.",
        some "\x7b\"price\": 200\x7d"⟩ := by
  refine ⟨by decide, by decide, by decide⟩

/-- C4 amended: for questions recognizing no airline token and no
after pattern, over contexts where no price resolution raises, the
scan selects the record with the lowest price among records whose
price resolves to a number — only numeric values resolve, string
prices never parse — ties keep the earliest record (every strictly
earlier record is strictly more expensive), the excerpt of the
interpreter is the serialization of the selected record, and when no
record resolves the interpreter returns exactly the fallback answer
with a null excerpt. -/
theorem cheapest_numeric_prices (q : String) (ctx : List Record)
    (hA : extractAirline (pyLower q) = none) (hT : extractAfter (pyLower q) = .ok none)
    (hP : ∀ c ∈ ctx, ¬resolvePrice c = .error ()) :
    ((∀ c ∈ ctx, resolvePrice c = .ok none) →
      mock_response q ctx = .ok ⟨fallbackAnswer, none⟩)
    ∧ (∀ c p, scanBest ctx = some (c, p) →
        c ∈ ctx ∧ resolvePrice c = .ok (some p)
        ∧ (∀ c2 ∈ ctx, ∀ p2, resolvePrice c2 = .ok (some p2) → p ≤ p2)
        ∧ ∃ l1 l2, ctx = l1 ++ c :: l2
            ∧ ∀ c2 ∈ l1, ∀ p2, resolvePrice c2 = .ok (some p2) → p < p2)
    ∧ (∀ r, mock_response q ctx = .ok r →
        r.excerpt = (scanBest ctx).map (fun bp => dumpRecord bp.1)) := by
  have hmock : mock_response q ctx = buildAnswer none (scanBest ctx) := by
    unfold mock_response
    rw [hT]
    dsimp only
    rw [hA, scanCards_no_filters ctx none hP]
    rfl
  refine ⟨?_, ?_, ?_⟩
  · intro hnone
    rw [hmock, show scanBest ctx = none from foldl_pureStep_unpriced ctx none hnone]
    rfl
  · intro c p hsb
    rcases foldl_pureStep_spec ctx none c p hsb with
      ⟨h0, _⟩ | ⟨l1, l2, hsplit, hres, _, hl1, hl2⟩
    · exact absurd h0 (by simp)
    · have hmem : c ∈ ctx := by
        rw [hsplit]
        exact List.mem_append_right l1 (List.mem_cons_self c l2)
      refine ⟨hmem, hres, ?_, l1, l2, hsplit, hl1⟩
      intro c2 hc2 p2 hp2
      rw [hsplit] at hc2
      rcases List.mem_append.mp hc2 with hc3 | hc3
      · exact le_of_lt (hl1 c2 hc3 p2 hp2)
      · rcases List.mem_cons.mp hc3 with rfl | hc4
        · rw [hres] at hp2
          exact le_of_eq (Option.some.inj (Except.ok.inj hp2))
        · exact hl2 c2 hc4 p2 hp2
  · intro r hr
    rw [hmock] at hr
    cases hsb : scanBest ctx with
    | none =>
      rw [hsb] at hr
      have h2 : MockResp.mk fallbackAnswer none = r := Except.ok.inj hr
      rw [← h2]
      rfl
    | some bp =>
      rw [hsb] at hr
      have hchar := foldl_pureStep_spec ctx none bp.1 bp.2 hsb
      have hres : resolvePrice bp.1 = .ok (some bp.2) := by
        rcases hchar with ⟨h0, _⟩ | ⟨_, _, _, hres, _⟩
        · exact absurd h0 (by simp)
        · exact hres
      have hne : ¬bp.1.isEmpty = true := by
        intro hemp
        have he0 : bp.1 = [] := List.isEmpty_iff.mp hemp
        rw [he0] at hres
        have he1 : resolvePrice ([] : Record) = .ok none := by decide
        rw [he1] at hres
        exact absurd hres (by simp)
      unfold buildAnswer at hr
      dsimp only at hr
      rw [if_neg hne] at hr
      cases hd : get_dep_time bp.1 with
      | error u =>
        rw [hd] at hr
        exact absurd hr (by simp)
      | ok dep =>
        rw [hd] at hr
        dsimp only at hr
        have h2 := Except.ok.inj hr
        rw [← h2]
        rfl

/-- The Air India card of Scenario A. -/
def aiCardA : Record :=
  [("airline", .jstr "Air India"), ("departure_time", .jstr "7:00 PM"),
    ("price", .jint 5000)]

/-- The IndiGo card of Scenario A. -/
def indigoCardA : Record :=
  [("airline", .jstr "IndiGo"), ("departure_time", .jstr "9:00 PM"),
    ("price", .jint 3000)]

/-- The Scenario A context. -/
def ctxA : List Record := [aiCardA, indigoCardA]

/-- C5 counterexample: on Scenario A the program returns the cheaper
IndiGo card, not the Air India card — the source airline alternative
`air\\s*india` and the after pattern both require a literal backslash,
so neither `air india` (case-folded) nor `airindia` is recognized and
no filter is applied; the excerpt is the IndiGo serialization, which
differs from the Air India serialization the claim requires. -/
theorem scenarioA_refuted :
    mock_response "Which is the cheapest Air India flight after 6 pm?" ctxA =
      .ok ⟨"Cheapest flight is IndiGo, departs at 9:00 PM, price 3000.0.",
        some (dumpRecord indigoCardA)⟩
    ∧ ¬dumpRecord indigoCardA = dumpRecord aiCardA
    ∧ extractAirline (pyLower "Which is the cheapest Air India flight after 6 pm?") = none
    ∧ extractAirline "airindia" = none := by
  refine ⟨by decide, by decide, by decide, by decide⟩

set_option maxRecDepth 4096 in
/-- C5 amended: on the Scenario A question the interpreter recognizes
neither the airline token nor the after threshold, applies no filter,
and selects the cheapest priced record — the IndiGo card — whose
serialization is the excerpt and passes verification against the full
serialized context. -/
theorem scenarioA_actual :
    extractAfter (pyLower "Which is the cheapest Air India flight after 6 pm?") = .ok none
    ∧ verify_excerpt (dumpCtx ctxA) (dumpRecord indigoCardA) = true
    ∧ mock_response "Which is the cheapest Air India flight after 6 pm?" ctxA =
      .ok ⟨"Cheapest flight is IndiGo, departs at 9:00 PM, price 3000.0.",
        some (dumpRecord indigoCardA)⟩ := by
  refine ⟨by decide, by decide, by decide⟩

/-- C6 counterexample: for the question `cheapest flight after 11 pm`
and a context whose only record departs at 10:00 PM (before 23:00),
the program answers with that record, not with the fallback the claim
requires — the after pattern extracts nothing, so no time filter is
applied. -/
theorem after11_refuted :
    mock_response "cheapest flight after 11 pm"
      [[("price", JVal.jint 100), ("departure_time", JVal.jstr "10:00 PM")]] =
      .ok ⟨"Cheapest flight is Unknown Airline, departs at 10:00 PM, price 100.0.",
        some "\x7b\"price\": 100, \"departure_time\": \"10:00 PM\"\x7d"⟩
    ∧ ¬"Cheapest flight is Unknown Airline, departs at 10:00 PM, price 100.0." =
        fallbackAnswer := by
  refine ⟨by decide, by decide⟩

/-- C6 amended: the after pattern is never extracted from the question
(the source regex requires literal backslash characters), so no time
filter is applied and no record is excluded by departure time; the
interpreter returns the fixed fallback pair exactly when no record has
a resolvable price. -/
theorem after11_no_filter (ctx : List Record)
    (h : ∀ c ∈ ctx, resolvePrice c = .ok none) :
    extractAfter (pyLower "cheapest flight after 11 pm") = .ok none
    ∧ mock_response "cheapest flight after 11 pm" ctx = .ok ⟨fallbackAnswer, none⟩ := by
  have hT : extractAfter (pyLower "cheapest flight after 11 pm") = .ok none := by decide
  have hA : extractAirline (pyLower "cheapest flight after 11 pm") = none := by decide
  refine ⟨hT, ?_⟩
  have hP : ∀ c ∈ ctx, ¬resolvePrice c = .error () := fun c hc => by
    rw [h c hc]
    simp
  unfold mock_response
  rw [hT]
  dsimp only
  rw [hA, scanCards_no_filters ctx none hP, foldl_pureStep_unpriced ctx none h]
  rfl

/-- C7 counterexample: the string `₹4,500` is what the spec calls
parseable (numeric token 4500), but the program resolves it to `None`
— the source price pattern matches only a literal backslash followed
by letters d — so the record is skipped and the interpreter falls
back. -/
theorem price_string_refuted :
    parse_price (JVal.jstr "₹4,500") = .ok none
    ∧ ¬parse_price (JVal.jstr "₹4,500") = .ok (some 4500)
    ∧ specParsePrice (JVal.jstr "₹4,500") = some 4500
    ∧ mock_response "x" [[("price", JVal.jstr "₹4,500")]] = .ok ⟨fallbackAnswer, none⟩ := by
  refine ⟨by decide, by decide, by decide, by decide⟩

/-- C7 amended: numeric price values (modelled as exact rationals)
convert directly; a string price never yields a numeric token — the
source pattern requires a literal backslash, so ordinary strings
resolve to `None` and the record is skipped by the scan without
replacing the current best (never treated as price zero) — and a
string that does contain the two-character sequence backslash-d makes
`float()` raise. -/
theorem parse_price_actual :
    (∀ n : Int, parse_price (.jint n) = .ok (some (n : ℚ)))
    ∧ (∀ qv : ℚ, parse_price (.jfloat qv) = .ok (some qv))
    ∧ parse_price (.jstr "₹4,500") = .ok none
    ∧ parse_price (.jstr "\\d") = .error ()
    ∧ (∀ (card : Record) (a : Option String) (t : Option Nat)
        (acc : Option (Record × ℚ)), resolvePrice card = .ok none →
          stepCard a t acc card = .ok acc) := by
  refine ⟨fun n => rfl, fun qv => rfl, by decide, by decide, ?_⟩
  intro card a t acc h
  unfold stepCard
  rw [h]

/-- A record carrying two truthy airline aliases at once. -/
def twoAliasCard : Record :=
  [("airline", .jstr "IndiGo"), ("carrier", .jstr "SpiceJet"),
    ("price", .jint 100), ("departure_time", .jstr "9:00 AM")]

/-- C8 counterexample: on a record whose `airline` key is `IndiGo` and
whose `carrier` key is `SpiceJet`, the question `cheapest indigo
flight` returns the fallback — the filter compares against the LAST
truthy alias (`spicejet`), not the first key as the claim states; and
a record with a present but falsy `price` key resolves its price from
`fare`, not from the first present key. -/
theorem alias_first_key_refuted :
    mock_response "cheapest indigo flight" [twoAliasCard] = .ok ⟨fallbackAnswer, none⟩
    ∧ extractAirline (pyLower "cheapest indigo flight") = some "indigo"
    ∧ airlineFilterStr twoAliasCard = "spicejet"
    ∧ resolvePrice [("price", JVal.jint 0), ("fare", JVal.jint 5)] = .ok (some 5) := by
  refine ⟨by decide, by decide, by decide, by decide⟩

/-- C8 amended: the airline string used by the filter is the last
truthy alias among `airline, carrier, airline_name` while the answer
text names the first truthy alias; the price value is resolved by
truthiness (a present falsy `price` falls through to `fare`); and the
departure time comes from the first truthy top-level alias, with the
`segments` fallback probed only when no top-level alias is truthy. -/
theorem alias_resolution_amended :
    mock_response "cheapest spicejet flight" [twoAliasCard] =
      .ok ⟨"Cheapest flight from IndiGo is IndiGo, departs at 9:00 AM, price 100.0.",
        some (dumpRecord twoAliasCard)⟩
    ∧ resolvePrice [("price", JVal.jint 0), ("fare", JVal.jint 5)] = .ok (some 5)
    ∧ get_dep_time [("departure_time", JVal.jstr ""), ("dep_time", JVal.jstr "8:00 AM")] =
        .ok (some "8:00 AM")
    ∧ get_dep_time [("dep", JVal.jstr "X"),
        ("segments", JVal.jarr (JList.cons
          (JVal.jobj (JFields.cons "dep_time" (JVal.jstr "Y") JFields.nil)) JList.nil))] =
        .ok (some "X")
    ∧ get_dep_time [("segments", JVal.jarr (JList.cons
        (JVal.jobj (JFields.cons "dep_time" (JVal.jstr "Y") JFields.nil)) JList.nil))] =
        .ok (some "Y") := by
  refine ⟨by decide, by decide, by decide, by decide, by decide⟩

/-- C9: the mock interpreter is not total — a record whose `segments`
list starts with a non-container value makes `get_dep_time` evaluate
the Python membership test `"dep_time" in None`, a `TypeError`; the
model returns the corresponding error on that input instead of an
answer. -/
theorem segments_raises :
    mock_response "cheapest flight"
      [[("price", JVal.jint 100),
        ("segments", JVal.jarr (JList.cons JVal.jnull JList.nil))]] = .error () := by
  decide

/-- C10: in mock mode the response is a pure function of the question
and the context alone — `get_response` ignores its `system_prompt`
argument and always equals `mock_response` on the same question and
context, so repeated calls with identical inputs agree. -/
theorem mock_mode_deterministic (sp1 sp2 q : String) (ctx : List Record) :
    get_response sp1 q ctx = get_response sp2 q ctx
    ∧ get_response sp1 q ctx = mock_response q ctx :=
  ⟨rfl, rfl⟩

/-! Witnesses: each hypothesis-bearing claim theorem applied at a
concrete input. -/

/-- The context used by the C1 witness. -/
def ctxW : List Record :=
  [[("airline", JVal.jstr "X"), ("price", JVal.jint 10),
    ("departure_time", JVal.jstr "9:00 AM")]]

theorem chat_endpoint_gate_witness :
    verify_excerpt (dumpCtx ctxW)
      "\x7b\"airline\": \"X\", \"price\": 10, \"departure_time\": \"9:00 AM\"\x7d" = true
    ∧ ∃ m, mock_response "cheapest flight" ctxW = .ok m
        ∧ m.answer = "Cheapest flight is X, departs at 9:00 AM, price 10.0."
        ∧ m.excerpt =
          some "\x7b\"airline\": \"X\", \"price\": 10, \"departure_time\": \"9:00 AM\"\x7d" :=
  (chat_endpoint_gate "cheapest flight" ctxW
      ⟨"Cheapest flight is X, departs at 9:00 AM, price 10.0.",
        some "\x7b\"airline\": \"X\", \"price\": 10, \"departure_time\": \"9:00 AM\"\x7d"⟩
      (by decide)).1 _ rfl

theorem mock_excerpt_verbatim_witness :
    ("\x7b\"price\": 7\x7d" : String).data <:+: (dumpCtx [[("price", JVal.jint 7)]]).data
    ∧ verify_excerpt (dumpCtx [[("price", JVal.jint 7)]]) "\x7b\"price\": 7\x7d" = true :=
  mock_excerpt_verbatim "x" [[("price", JVal.jint 7)]]
    ⟨"Cheapest flight is Unknown Airline, departs at Unknown, price 7.0.",
      some "\x7b\"price\": 7\x7d"⟩
    "\x7b\"price\": 7\x7d" (by decide) rfl

theorem cheapest_numeric_prices_witness :
    mock_response "hello" [[("price", JVal.jstr "oops")]] = .ok ⟨fallbackAnswer, none⟩ :=
  (cheapest_numeric_prices "hello" [[("price", JVal.jstr "oops")]]
    (by decide) (by decide) (by decide)).1 (by decide)

theorem after11_no_filter_witness :
    mock_response "cheapest flight after 11 pm" [[("note", JVal.jstr "no price")]] =
      .ok ⟨fallbackAnswer, none⟩ :=
  (after11_no_filter [[("note", JVal.jstr "no price")]] (by decide)).2

theorem parse_price_actual_witness :
    stepCard none none none [("note", JVal.jstr "no price here")] = .ok none :=
  parse_price_actual.2.2.2.2 [("note", JVal.jstr "no price here")] none none none (by decide)

end AIWidget
